import Mathlib

/-!
# timing.c: the measurement-and-statistics engine

A shallow embedding of the duration-mode path of `timing.c`:

* `time_compare`   (lines 45-60), the comparison function handed to `qsort`;
* `get_time_diff`  (lines 427-452), the elapsed time of one trial and the valid-sample counter;
* `time_stats`     (lines 455-517), trimmed mean and unbiased standard deviation;
* the parts of `main` that drive them: the trial loop (lines 250-360), the sort, the
  computation of the cut and the reported minimum and maximum (lines 375-419).

Conventions of the embedding.

* `unsigned long` and `unsigned long long` are 64 bits wide; every unsigned operation of the
  source is reduced modulo `2^64` explicitly.
* The fields of a `struct timespec` are signed (`time_t` and `long`, 64 bits).  The result of
  every signed addition and subtraction of the source is reduced to the 64-bit range in
  two-complement (`to_long`), which is what the compiled program computes when the exact result
  does not fit.  A conversion from signed to unsigned is `to_ulong`.
* `mpz_t` values are `Int`; `mpz_tdiv_*` is `Int.tdiv`/`Int.tmod`; `mpz_sqrt` is the floor square
  root.
* An array is a `List timespec`; a read outside of it, or a division by zero, has no result
  (`none`).
* `main` runs the same code for the realtime clock and for the CPU clock; the loop and the
  report are modelled for one clock source.
-/

namespace Timing

/-! ## Data model -/

/-- The `struct timespec` of the C library: seconds and nanoseconds, both signed. -/
structure timespec where
  tv_sec : Int
  tv_nsec : Int
deriving DecidableEq, Repr

/-- Conversion of a signed 64-bit value to `unsigned long`: reduction modulo `2^64`. -/
def to_ulong (x : Int) : Nat := (x % 18446744073709551616).toNat

/-- The result of a signed 64-bit operation whose exact value is `x`: the representative of `x`
modulo `2^64` in `[-2^63, 2^63)`. -/
def to_long (x : Int) : Int :=
  (x + 9223372036854775808) % 18446744073709551616 - 9223372036854775808

/-- The value of a `timespec` in nanoseconds. -/
def total_ns (t : timespec) : Int := t.tv_sec * 1000000000 + t.tv_nsec

/-- A normalised `timespec`: the nanoseconds lie in `[0, 10^9)`. -/
def normalised (t : timespec) : Prop := 0 ≤ t.tv_nsec ∧ t.tv_nsec < 1000000000

instance (t : timespec) : Decidable (normalised t) := by
  unfold normalised; infer_instance

/-- A normalised, non-negative duration. -/
def duration (t : timespec) : Prop := 0 ≤ t.tv_sec ∧ normalised t

instance (t : timespec) : Decidable (duration t) := by
  unfold duration; infer_instance

/-! ## `time_compare` and `qsort` -/

/-- Lines 45-60: seconds first, then nanoseconds. -/
def time_compare (t1 t2 : timespec) : Int :=
  if t1.tv_sec < t2.tv_sec then -1
  else if t1.tv_sec > t2.tv_sec then 1
  else if t1.tv_nsec < t2.tv_nsec then -1
  else if t1.tv_nsec > t2.tv_nsec then 1
  else 0

/-- The order `qsort` sorts by: `t1` may stand before `t2` when `time_compare t1 t2 ≤ 0`. -/
def time_le (t1 t2 : timespec) : Prop := time_compare t1 t2 ≤ 0

instance : DecidableRel time_le := fun a b => by
  unfold time_le; infer_instance

instance : IsTotal timespec time_le :=
  ⟨fun a b => by unfold time_le time_compare; split_ifs <;> omega⟩

instance : IsTrans timespec time_le :=
  ⟨fun a b c h1 h2 => by unfold time_le time_compare at *; split_ifs at * <;> omega⟩

/-- The library call `qsort (base, nmemb, size, time_compare)`: the first `nmemb` elements of the
array are put in ascending order, the rest is untouched.  `time_compare` returns `0` on equal
elements only, so every correct sort produces this same array. -/
def qsort (base : List timespec) (nmemb : Nat) : List timespec :=
  (base.take nmemb).insertionSort time_le ++ base.drop nmemb

/-! ## `get_time_diff` -/

/-- Lines 433-442: `res - start` with a borrow from the seconds; `res` holds the end timestamp. -/
def elapsed (start res : timespec) : timespec :=
  if res.tv_nsec < start.tv_nsec then
    { tv_sec := to_long (res.tv_sec - to_long (1 + start.tv_sec)),
      tv_nsec := to_long (to_long (1000000000 + res.tv_nsec) - start.tv_nsec) }
  else
    { tv_sec := to_long (res.tv_sec - start.tv_sec),
      tv_nsec := to_long (res.tv_nsec - start.tv_nsec) }

/-- Lines 427-452.  `clock_round` says whether the start timestamp was read; `now` is what
`clock_gettime (cl, res)` delivers when it is called (`none`: the call fails and leaves `res`
as it was); `res` is the previous content of the slot; `cntr` is `*cntrp`.  The result is the
new content of the slot and the new counter. -/
def get_time_diff (clock_round : Bool) (now : Option timespec) (start res : timespec)
    (cntr : Nat) : timespec × Nat :=
  match clock_round, now with
  | true, some e =>
    let res1 := elapsed start e
    (res1, if res1.tv_sec ≠ 0 ∨ res1.tv_nsec ≠ 0 then (cntr + 1) % 18446744073709551616 else cntr)
  | _, _ =>
    ({ tv_sec := to_long (res.tv_sec - start.tv_sec),
       tv_nsec := to_long (res.tv_nsec - start.tv_nsec) }, cntr)

/-! ## `time_stats` -/

/-- Lines 459-463: the number of samples left after `timecount -= 2 * cut`, in `unsigned long`. -/
def trimmed_count (timecount cut : Nat) : Nat :=
  if cut > 0 then
    (timecount + (18446744073709551616 - (2 * cut) % 18446744073709551616))
      % 18446744073709551616
  else timecount

/-- The elements `all_times[off] .. all_times[off + n - 1]`, when they all lie in the array. -/
def window (all_times : List timespec) (off n : Nat) : Option (List timespec) :=
  if off + n ≤ all_times.length then some ((all_times.drop off).take n) else none

/-- Line 468: one step of the summation, in `unsigned long long`. -/
def add_time (temp : Nat) (t : timespec) : Nat :=
  (temp + (to_ulong t.tv_sec * 1000000000 + to_ulong t.tv_nsec)) % 18446744073709551616

/-- Lines 482-497: the squared difference of one sample and the average. -/
def sqdif (avg t : timespec) : Int :=
  let dsec := to_long (t.tv_sec - avg.tv_sec)
  let dnsec := to_long (t.tv_nsec - avg.tv_nsec)
  let dif : timespec :=
    if dnsec < 0 then
      { tv_sec := to_long (dsec - 1), tv_nsec := to_long (dnsec + 1000000000) }
    else { tv_sec := dsec, tv_nsec := dnsec }
  let tmp : Int := dif.tv_sec * 1000000000 + (to_ulong dif.tv_nsec : Int)
  tmp * tmp

/-- Lines 479-502: one step of the accumulation; a sample that is exactly `(0, 0)` is skipped. -/
def add_sqdif (avg : timespec) (sumsqdif : Int) (t : timespec) : Int :=
  if t.tv_sec ≠ 0 ∨ t.tv_nsec ≠ 0 then sumsqdif + sqdif avg t else sumsqdif

/-- The floor of the square root, `mpz_sqrt`. -/
def mpz_sqrt (z : Int) : Int := (Nat.sqrt z.toNat : Int)

/-- Lines 465-517 on the samples `view` that the loops read; `timecount` is the (already
reduced) number of samples.  The result is `(avg, q, r)`.  The two fields of `avg` are below
`2^63`, so their conversion to `long` is exact. -/
def stats_of (view : List timespec) (timecount : Nat) : Option (timespec × Int × Int) :=
  let temp := view.foldl add_time 0
  if timecount = 0 then none
  else
    let temp := temp / timecount
    let avg : timespec :=
      { tv_sec := (temp / 1000000000 : Nat), tv_nsec := (temp % 1000000000 : Nat) }
    let sumsqdif := view.foldl (add_sqdif avg) 0
    let sumsqdif :=
      if timecount > 1 then
        Int.tdiv (sumsqdif + (((timecount - 1) / 2 : Nat) : Int)) ((timecount - 1 : Nat) : Int)
      else sumsqdif
    let sumsqdif := mpz_sqrt sumsqdif
    some (avg, Int.tdiv sumsqdif 1000000000, Int.tmod sumsqdif 1000000000)

/-- Lines 455-517. -/
def time_stats (all_times : List timespec) (timecount cut : Nat) :
    Option (timespec × Int × Int) :=
  let off := if cut > 0 then cut else 0
  let timecount := trimmed_count timecount cut
  match window all_times off timecount with
  | none => none
  | some view => stats_of view timecount

/-! ## `main` -/

/-- Lines 382-383: the number of samples to drop at each end, in `unsigned long`. -/
def main_cut (timecount cut_percentage : Nat) : Nat :=
  ((timecount * cut_percentage + 50) % 18446744073709551616) / 100

/-- What `main` prints for one clock source. -/
structure clock_stats where
  minimum : timespec
  maximum : timespec
  avg : timespec
  q : Int
  r : Int
deriving DecidableEq, Repr

/-- Lines 375-419 for one clock source: sort, cut, `time_stats`, and the four reported values.
The minimum is `all_times[0]` and the maximum `all_times[timecount - 1]` of the sorted array.
There is no report (`none`) when `time_stats` has no result or a read leaves the array. -/
def clock_report (all_times : List timespec) (timecount cut_percentage : Nat) :
    Option clock_stats :=
  let sorted := qsort all_times timecount
  let cut := main_cut timecount cut_percentage
  match time_stats sorted timecount cut, sorted[0]?,
      sorted[(timecount + 18446744073709551615) % 18446744073709551616]? with
  | some (avg, q, r), some mn, some mx =>
    some { minimum := mn, maximum := mx, avg := avg, q := q, r := r }
  | _, _, _ => none

/-- `WEXITSTATUS`. -/
def WEXITSTATUS (status : Nat) : Nat := (status / 256) % 256

/-- Lines 278-280: every `waitpid` stores into the one variable `status`; `status0` is its
content before the loop. -/
def wait_all (status0 : Nat) (statuses : List Nat) : Nat :=
  statuses.foldl (fun _ s => s) status0

/-- Lines 358-359: whether the trial ends in `error (EXIT_FAILURE, ...)`. -/
def trial_aborts (ignore_status : Bool) (status0 : Nat) (statuses : List Nat) : Bool :=
  decide (WEXITSTATUS (wait_all status0 statuses) ≠ 0) && !ignore_status

/-- What one trial observes for one clock source: whether the start timestamp was read
(`clock_round`), the start timestamp, the result of the read at the end, and the termination
statuses of the children in the order they are waited for. -/
structure trial where
  clock_round : Bool
  start : timespec
  now : Option timespec
  status0 : Nat
  statuses : List Nat

/-- Lines 250-360 in duration mode, for one clock source: trial `i` (counted from `0` here)
writes slot `i` of the array and may count as valid; `none` is the fatal exit. -/
def main_loop (ignore_status : Bool) :
    List trial → Nat → List timespec → Nat → Option (List timespec × Nat)
  | [], _, all_times, timecount => some (all_times, timecount)
  | t :: ts, i, all_times, timecount =>
    match all_times[i]? with
    | none => none
    | some res =>
      let (res1, timecount1) := get_time_diff t.clock_round t.now t.start res timecount
      if trial_aborts ignore_status t.status0 t.statuses then none
      else main_loop ignore_status ts (i + 1) (all_times.set i res1) timecount1

/-! ## Notions of the specification -/

/-- A trial counts as valid when both clock reads succeeded and the elapsed time is not
`(0, 0)`. -/
def valid_trial (t : trial) : Bool :=
  t.clock_round &&
    match t.now with
    | some e => decide (elapsed t.start e ≠ { tv_sec := 0, tv_nsec := 0 })
    | none => false

/-- The sum of the squared deviations from `mean_ns`, over the samples that are not `(0, 0)`. -/
def sq_dev_sum (view : List timespec) (mean_ns : Int) : Int :=
  ((view.filter (fun t => decide (t ≠ { tv_sec := 0, tv_nsec := 0 }))).map
    (fun t => (total_ns t - mean_ns) ^ 2)).sum

/-- The sum of the samples as line 468 forms it, in `unsigned long long`. -/
def ulong_total (view : List timespec) : Nat :=
  (view.map (fun t => to_ulong t.tv_sec * 1000000000 + to_ulong t.tv_nsec)).sum
    % 18446744073709551616

/-- The sum of `sqdif avg` over the samples that are not `(0, 0)`. -/
def sqdif_total (avg : timespec) (view : List timespec) : Int :=
  ((view.filter (fun t => decide (t ≠ { tv_sec := 0, tv_nsec := 0 }))).map (sqdif avg)).sum

/-- The sum of the samples in nanoseconds. -/
def sum_ns (view : List timespec) : Int := (view.map total_ns).sum

/-- The trimmed view: the samples at the indices `cut .. timecount - cut - 1`. -/
def trimmed_view (all_times : List timespec) (timecount cut : Nat) : List timespec :=
  (all_times.drop cut).take (timecount - 2 * cut)

/-- The durations of the trials that count as valid, in the order of the trials. -/
def valid_durations (trials : List trial) : List timespec :=
  trials.filterMap (fun t => if valid_trial t = true then t.now.map (elapsed t.start) else none)

/-! ## Auxiliary facts -/

theorem to_long_small (x : Int) (h0 : -9223372036854775808 ≤ x)
    (h : x < 9223372036854775808) : to_long x = x := by
  unfold to_long
  omega

theorem elapsed_exact (start e : timespec) (hs : normalised start) (he : normalised e)
    (hle : total_ns start ≤ total_ns e)
    (hr : e.tv_sec - start.tv_sec < 9223372036854775808) :
    elapsed start e =
      if e.tv_nsec < start.tv_nsec then
        { tv_sec := e.tv_sec - start.tv_sec - 1,
          tv_nsec := e.tv_nsec + 1000000000 - start.tv_nsec }
      else { tv_sec := e.tv_sec - start.tv_sec, tv_nsec := e.tv_nsec - start.tv_nsec } := by
  unfold normalised at hs he
  unfold total_ns at hle
  unfold elapsed
  split
  · rw [timespec.mk.injEq]
    constructor <;> (unfold to_long; omega)
  · rw [timespec.mk.injEq]
    constructor <;> (unfold to_long; omega)

theorem elapsed_total_ns (start e : timespec) (hs : normalised start) (he : normalised e)
    (hle : total_ns start ≤ total_ns e)
    (hr : e.tv_sec - start.tv_sec < 9223372036854775808) :
    total_ns (elapsed start e) = total_ns e - total_ns start := by
  rw [elapsed_exact start e hs he hle hr]
  unfold total_ns
  split <;> simp only <;> ring

theorem elapsed_normalised (start e : timespec) (hs : normalised start) (he : normalised e)
    (hle : total_ns start ≤ total_ns e)
    (hr : e.tv_sec - start.tv_sec < 9223372036854775808) :
    normalised (elapsed start e) := by
  rw [elapsed_exact start e hs he hle hr]
  unfold normalised at *
  split <;> simp only <;> omega

theorem get_time_diff_read (start e res : timespec) (cntr : Nat) :
    (get_time_diff true (some e) start res cntr).1 = elapsed start e := rfl

theorem to_ulong_small (x : Int) (h0 : 0 ≤ x) (h : x < 18446744073709551616) :
    ((to_ulong x : Nat) : Int) = x := by
  unfold to_ulong
  rw [Int.emod_eq_of_lt h0 h]
  exact Int.toNat_of_nonneg h0

theorem sqdif_eq (avg t : timespec) (ha : normalised avg) (ht : normalised t)
    (hlo : -9223372036854775807 ≤ t.tv_sec - avg.tv_sec)
    (hhi : t.tv_sec - avg.tv_sec < 9223372036854775808) :
    sqdif avg t = (total_ns t - total_ns avg) ^ 2 := by
  unfold normalised at *
  have h1 : to_long (t.tv_sec - avg.tv_sec) = t.tv_sec - avg.tv_sec :=
    to_long_small _ (by omega) hhi
  have h2 : to_long (t.tv_nsec - avg.tv_nsec) = t.tv_nsec - avg.tv_nsec :=
    to_long_small _ (by omega) (by omega)
  have h3 : to_long (t.tv_sec - avg.tv_sec - 1) = t.tv_sec - avg.tv_sec - 1 :=
    to_long_small _ (by omega) (by omega)
  have h4 : to_long (t.tv_nsec - avg.tv_nsec + 1000000000)
      = t.tv_nsec - avg.tv_nsec + 1000000000 :=
    to_long_small _ (by omega) (by omega)
  unfold sqdif total_ns
  simp only [h1, h2, h3, h4]
  split
  · rw [to_ulong_small _ (by simp only; omega) (by simp only; omega)]
    simp only
    ring
  · rw [to_ulong_small _ (by simp only; omega) (by simp only; omega)]
    simp only
    ring
theorem main_cut_exact (timecount cut_percentage : Nat)
    (h : timecount * cut_percentage + 50 < 18446744073709551616) :
    main_cut timecount cut_percentage = (timecount * cut_percentage + 50) / 100 := by
  unfold main_cut
  rw [Nat.mod_eq_of_lt h]

theorem trimmed_count_exact (timecount cut : Nat)
    (hn : cut = 0 ∨ timecount < 18446744073709551616)
    (h : 2 * cut ≤ timecount) : trimmed_count timecount cut = timecount - 2 * cut := by
  unfold trimmed_count
  split
  · omega
  · omega

theorem add_time_foldl (view : List timespec) (temp : Nat) (h : temp < 18446744073709551616) :
    view.foldl add_time temp
      = (temp + (view.map (fun t => to_ulong t.tv_sec * 1000000000 + to_ulong t.tv_nsec)).sum)
          % 18446744073709551616 := by
  induction view generalizing temp with
  | nil => simp [Nat.mod_eq_of_lt h]
  | cons t l ih =>
    have hlt : add_time temp t < 18446744073709551616 := Nat.mod_lt _ (by decide)
    rw [List.foldl_cons, ih _ hlt]
    simp only [add_time, List.map_cons, List.sum_cons]
    rw [Nat.mod_add_mod, Nat.add_assoc]

theorem total_ns_nonneg (t : timespec) (h : duration t) : 0 ≤ total_ns t := by
  unfold duration normalised at h
  unfold total_ns
  omega

theorem sum_ns_nonneg (view : List timespec) (h : ∀ t ∈ view, duration t) : 0 ≤ sum_ns view := by
  induction view with
  | nil => simp [sum_ns]
  | cons t l ih =>
    have h1 := total_ns_nonneg t (h t (List.mem_cons_self _ _))
    have h2 := ih (fun x hx => h x (List.mem_cons_of_mem _ hx))
    simp only [sum_ns, List.map_cons, List.sum_cons] at *
    omega

theorem ulong_sum_eq (view : List timespec) (h : ∀ t ∈ view, duration t)
    (hs : sum_ns view < 18446744073709551616) :
    (((view.map (fun t => to_ulong t.tv_sec * 1000000000 + to_ulong t.tv_nsec)).sum : Nat) : Int)
      = sum_ns view := by
  induction view with
  | nil => simp [sum_ns]
  | cons t l ih =>
    have hd := h t (List.mem_cons_self _ _)
    have h1 := total_ns_nonneg t hd
    have h2 := sum_ns_nonneg l (fun x hx => h x (List.mem_cons_of_mem _ hx))
    have hs2 : total_ns t + sum_ns l < 18446744073709551616 := by
      simpa [sum_ns] using hs
    have ih2 := ih (fun x hx => h x (List.mem_cons_of_mem _ hx)) (by omega)
    simp only [List.map_cons, List.sum_cons, sum_ns] at *
    rw [Nat.cast_add, ih2]
    push_cast
    unfold duration normalised at hd
    unfold total_ns at *
    rw [to_ulong_small t.tv_sec hd.1 (by omega), to_ulong_small t.tv_nsec hd.2.1 (by omega)]

theorem timespec_ne_zero (t : timespec) :
    (t.tv_sec ≠ 0 ∨ t.tv_nsec ≠ 0) ↔ t ≠ { tv_sec := 0, tv_nsec := 0 } := by
  cases t with
  | mk s n =>
    simp only [ne_eq, timespec.mk.injEq, not_and]
    constructor
    · rintro (h | h) h1 h2
      · exact h h1
      · exact h h2
    · intro h
      by_cases hs : s = 0
      · exact Or.inr (h hs)
      · exact Or.inl hs

theorem sq_dev_sum_nonneg (view : List timespec) (m : Int) : 0 ≤ sq_dev_sum view m := by
  unfold sq_dev_sum
  apply List.sum_nonneg
  intro x hx
  rw [List.mem_map] at hx
  obtain ⟨t, _, rfl⟩ := hx
  positivity

theorem trimmed_view_length (all_times : List timespec) (timecount cut : Nat)
    (hlen : timecount ≤ all_times.length) :
    (trimmed_view all_times timecount cut).length = timecount - 2 * cut := by
  unfold trimmed_view
  rw [List.length_take, List.length_drop]
  omega

theorem time_stats_eq_stats_of (all_times : List timespec) (timecount cut : Nat)
    (hN : timecount < 18446744073709551616) (hlen : timecount ≤ all_times.length)
    (hcut : 2 * cut ≤ timecount) :
    time_stats all_times timecount cut
      = stats_of (trimmed_view all_times timecount cut) (timecount - 2 * cut) := by
  unfold time_stats
  simp only
  rw [trimmed_count_exact timecount cut (Or.inr hN) hcut]
  have hoff : (if cut > 0 then cut else 0) = cut := by
    split
    · rfl
    · omega
  rw [hoff]
  unfold window
  rw [if_pos (by omega)]
  rfl

theorem sqrt_of_square : Nat.sqrt 1000000000000000000 = 1000000000 := by
  symm
  rw [Nat.eq_sqrt]
  decide

theorem mpz_sqrt_example : mpz_sqrt 1000000000000000000 = 1000000000 := by
  unfold mpz_sqrt
  have hnat : Int.toNat 1000000000000000000 = 1000000000000000000 := by decide
  rw [hnat, sqrt_of_square]
  rfl

theorem add_time_foldl_total (view : List timespec) :
    view.foldl add_time 0 = ulong_total view := by
  rw [add_time_foldl view 0 (by decide), Nat.zero_add]
  rfl

theorem total_ns_le_sum (view : List timespec) (h : ∀ t ∈ view, duration t) :
    ∀ t ∈ view, total_ns t ≤ sum_ns view := by
  induction view with
  | nil => intro t ht; simp at ht
  | cons a l ih =>
    intro t ht
    have h1 := total_ns_nonneg a (h a (List.mem_cons_self _ _))
    have h2 := sum_ns_nonneg l (fun x hx => h x (List.mem_cons_of_mem _ hx))
    have hsum : sum_ns (a :: l) = total_ns a + sum_ns l := by simp [sum_ns]
    rw [hsum]
    rcases List.mem_cons.1 ht with rfl | ht
    · omega
    · have := ih (fun x hx => h x (List.mem_cons_of_mem _ hx)) t ht
      omega

theorem add_sqdif_foldl (avg : timespec) (view : List timespec) (s : Int) :
    view.foldl (add_sqdif avg) s = s + sqdif_total avg view := by
  induction view generalizing s with
  | nil => simp [sqdif_total]
  | cons t l ih =>
    rw [List.foldl_cons, ih]
    unfold add_sqdif sqdif_total
    by_cases hz : t = { tv_sec := 0, tv_nsec := 0 }
    · have h1 : ¬ (t.tv_sec ≠ 0 ∨ t.tv_nsec ≠ 0) := by
        rw [timespec_ne_zero]; simpa using hz
      rw [if_neg h1, List.filter_cons_of_neg (by simpa using hz)]
    · have h1 : t.tv_sec ≠ 0 ∨ t.tv_nsec ≠ 0 := (timespec_ne_zero t).2 hz
      rw [if_pos h1, List.filter_cons_of_pos (by simpa using hz), List.map_cons, List.sum_cons]
      ring

theorem sqdif_total_eq (avg : timespec) (ha : normalised avg) (view : List timespec)
    (h : ∀ t ∈ view, normalised t ∧ -9223372036854775807 ≤ t.tv_sec - avg.tv_sec
      ∧ t.tv_sec - avg.tv_sec < 9223372036854775808) :
    sqdif_total avg view = sq_dev_sum view (total_ns avg) := by
  unfold sqdif_total sq_dev_sum
  congr 1
  apply List.map_congr_left
  intro t ht
  have := h t (List.mem_of_mem_filter ht)
  exact sqdif_eq avg t ha this.1 this.2.1 this.2.2

theorem stats_of_eq (view : List timespec) (n : Nat) (hn : n ≠ 0) :
    ∃ avg : timespec,
      avg = timespec.mk ((ulong_total view / n / 1000000000 : Nat) : Int)
              ((ulong_total view / n % 1000000000 : Nat) : Int)
      ∧ stats_of view n
        = some (avg,
            Int.tdiv (mpz_sqrt (if n > 1 then
                Int.tdiv (sqdif_total avg view + (((n - 1) / 2 : Nat) : Int)) ((n - 1 : Nat) : Int)
              else sqdif_total avg view)) 1000000000,
            Int.tmod (mpz_sqrt (if n > 1 then
                Int.tdiv (sqdif_total avg view + (((n - 1) / 2 : Nat) : Int)) ((n - 1 : Nat) : Int)
              else sqdif_total avg view)) 1000000000) := by
  refine ⟨_, rfl, ?_⟩
  unfold stats_of
  simp only
  rw [if_neg hn, add_time_foldl_total, add_sqdif_foldl, Int.zero_add]

theorem ulong_total_eq (view : List timespec) (hd : ∀ t ∈ view, duration t)
    (hs : sum_ns view < 18446744073709551616) : ulong_total view = (sum_ns view).toNat := by
  have h1 := ulong_sum_eq view hd hs
  unfold ulong_total
  have h2 : (view.map (fun t => to_ulong t.tv_sec * 1000000000 + to_ulong t.tv_nsec)).sum
      = (sum_ns view).toNat := by omega
  rw [h2]
  apply Nat.mod_eq_of_lt
  omega

theorem stats_of_average (view : List timespec) (n : Nat) (hn : n ≠ 0)
    (hd : ∀ t ∈ view, duration t) (hs : sum_ns view < 18446744073709551616) :
    ∃ q r, stats_of view n
      = some ({ tv_sec := (((sum_ns view).toNat / n / 1000000000 : Nat) : Int),
                tv_nsec := (((sum_ns view).toNat / n % 1000000000 : Nat) : Int) }, q, r) := by
  obtain ⟨avg, havg, hst⟩ := stats_of_eq view n hn
  rw [ulong_total_eq view hd hs] at havg
  rw [hst, havg]
  exact ⟨_, _, rfl⟩

theorem stats_of_spec (view : List timespec) (n : Nat) (hn : n ≠ 0)
    (hd : ∀ t ∈ view, duration t) (hs : sum_ns view < 18446744073709551616) :
    ∃ avg q r, stats_of view n = some (avg, q, r)
      ∧ total_ns avg = (((sum_ns view).toNat / n : Nat) : Int)
      ∧ 0 ≤ q ∧ 0 ≤ r ∧ r < 1000000000
      ∧ q * 1000000000 + r
          = ((Nat.sqrt (if 1 < n then
                ((sq_dev_sum view (((sum_ns view).toNat / n : Nat) : Int)).toNat + (n - 1) / 2)
                  / (n - 1)
              else (sq_dev_sum view (((sum_ns view).toNat / n : Nat) : Int)).toNat) : Nat)
              : Int) := by
  obtain ⟨avg, havg, hst⟩ := stats_of_eq view n hn
  rw [ulong_total_eq view hd hs] at havg
  have hsum0 := sum_ns_nonneg view hd
  have hm : (sum_ns view).toNat / n < 18446744073709551616 :=
    lt_of_le_of_lt (Nat.div_le_self _ _) (by omega)
  generalize (sum_ns view).toNat / n = m at havg hm ⊢
  have hsec : avg.tv_sec = ((m / 1000000000 : Nat) : Int) := by rw [havg]
  have hnsec : avg.tv_nsec = ((m % 1000000000 : Nat) : Int) := by rw [havg]
  have htot : total_ns avg = (m : Int) := by
    unfold total_ns
    rw [hsec, hnsec]
    omega
  have hna : normalised avg := by
    unfold normalised
    rw [hnsec]
    omega
  have hview : ∀ t ∈ view, normalised t ∧ -9223372036854775807 ≤ t.tv_sec - avg.tv_sec
      ∧ t.tv_sec - avg.tv_sec < 9223372036854775808 := by
    intro t ht
    have h1 := total_ns_le_sum view hd t ht
    have h2 := hd t ht
    unfold duration normalised at h2
    unfold total_ns at h1
    refine ⟨h2.2, ?_, ?_⟩ <;> rw [hsec] <;> omega
  have hS := sqdif_total_eq avg hna view hview
  rw [htot] at hS
  rw [hS] at hst
  have hS0 := sq_dev_sum_nonneg view (m : Int)
  generalize sq_dev_sum view (m : Int) = S at hst hS0 ⊢
  obtain ⟨s, rfl⟩ := Int.eq_ofNat_of_zero_le hS0
  have hV : (if n > 1 then
        Int.tdiv ((s : Int) + (((n - 1) / 2 : Nat) : Int)) ((n - 1 : Nat) : Int)
      else (s : Int))
      = (((if 1 < n then (s + (n - 1) / 2) / (n - 1) else s) : Nat) : Int) := by
    split
    · rw [← Nat.cast_add, ← Int.ofNat_tdiv]
    · rfl
  rw [hV] at hst
  have hsq : mpz_sqrt (((if 1 < n then (s + (n - 1) / 2) / (n - 1) else s : Nat)) : Int)
      = ((Nat.sqrt (if 1 < n then (s + (n - 1) / 2) / (n - 1) else s) : Nat) : Int) := by
    unfold mpz_sqrt
    rw [Int.toNat_natCast]
  rw [hsq] at hst
  rw [Int.toNat_natCast]
  refine ⟨avg, _, _, hst, htot, ?_, ?_, ?_, ?_⟩
  · exact Int.tdiv_nonneg (Int.natCast_nonneg _) (by decide)
  · exact Int.tmod_nonneg _ (Int.natCast_nonneg _)
  · exact Int.tmod_lt_of_pos _ (by decide)
  · have := Int.tdiv_add_tmod
      ((Nat.sqrt (if 1 < n then (s + (n - 1) / 2) / (n - 1) else s) : Nat) : Int) 1000000000
    linarith

theorem time_le_refl (a : timespec) : time_le a a := by
  unfold time_le time_compare
  split_ifs <;> omega

theorem time_le_iff_total_ns (a b : timespec) (ha : normalised a) (hb : normalised b) :
    time_le a b ↔ total_ns a ≤ total_ns b := by
  unfold normalised at *
  unfold time_le time_compare total_ns
  split_ifs <;> constructor <;> intro h <;> omega

theorem sorted_head_le (l : List timespec) (hs : l.Sorted time_le) (x : timespec)
    (hx : l.head? = some x) : ∀ y ∈ l, time_le x y := by
  cases l with
  | nil => simp at hx
  | cons a t =>
    simp only [List.head?_cons, Option.some.injEq] at hx
    subst hx
    intro y hy
    rcases List.mem_cons.1 hy with rfl | hy
    · exact time_le_refl _
    · exact List.rel_of_sorted_cons hs y hy

theorem sorted_le_last (l : List timespec) (hs : l.Sorted time_le) (x : timespec)
    (hx : l.getLast? = some x) : ∀ y ∈ l, time_le y x := by
  obtain ⟨ys, rfl⟩ := List.getLast?_eq_some_iff.1 hx
  intro y hy
  rcases List.mem_append.1 hy with hy | hy
  · exact (List.pairwise_append.1 hs).2.2 y hy x (List.mem_singleton_self x)
  · rw [List.mem_singleton.1 hy]
    exact time_le_refl _

theorem qsort_length (base : List timespec) (nmemb : Nat) :
    (qsort base nmemb).length = base.length := by
  unfold qsort
  rw [List.length_append, List.length_insertionSort, List.length_take, List.length_drop]
  omega

theorem qsort_getElem (base : List timespec) (nmemb i : Nat) (hlen : nmemb ≤ base.length)
    (hi : i < nmemb) :
    (qsort base nmemb)[i]? = ((base.take nmemb).insertionSort time_le)[i]? := by
  unfold qsort
  rw [List.getElem?_append_left]
  rw [List.length_insertionSort, List.length_take]
  omega

theorem stats_of_some (view : List timespec) (n : Nat) (hn : n ≠ 0) :
    ∃ s, stats_of view n = some s := by
  unfold stats_of
  simp only
  rw [if_neg hn]
  exact ⟨_, rfl⟩

theorem time_stats_some (all_times : List timespec) (timecount cut : Nat)
    (hN : timecount < 18446744073709551616) (hlen : timecount ≤ all_times.length)
    (hcut : 2 * cut < timecount) : ∃ s, time_stats all_times timecount cut = some s := by
  rw [time_stats_eq_stats_of all_times timecount cut hN hlen (by omega)]
  exact stats_of_some _ _ (by omega)

theorem clock_report_fields (all_times : List timespec) (timecount cut_percentage : Nat)
    (hN : timecount < 18446744073709551616) (hn : 1 ≤ timecount)
    (hlen : timecount ≤ all_times.length) (rep : clock_stats)
    (h : clock_report all_times timecount cut_percentage = some rep) :
    ((all_times.take timecount).insertionSort time_le).head? = some rep.minimum
    ∧ ((all_times.take timecount).insertionSort time_le).getLast? = some rep.maximum := by
  have hidx : (timecount + 18446744073709551615) % 18446744073709551616 = timecount - 1 := by
    omega
  have h0 := qsort_getElem all_times timecount 0 hlen (by omega)
  have h1 := qsort_getElem all_times timecount (timecount - 1) hlen (by omega)
  have hl : ((all_times.take timecount).insertionSort time_le).length = timecount := by
    rw [List.length_insertionSort, List.length_take]; omega
  unfold clock_report at h
  simp only at h
  rw [hidx, h0, h1] at h
  rw [List.head?_eq_getElem?, List.getLast?_eq_getElem?, hl]
  split at h
  · next avg q r mn mx _ hmn hmx =>
    simp only [Option.some.injEq] at h
    subst h
    exact ⟨hmn, hmx⟩
  · simp at h

theorem clock_report_some (all_times : List timespec) (timecount cut_percentage : Nat)
    (hN : timecount < 18446744073709551616) (hlen : timecount ≤ all_times.length)
    (hcut : 2 * main_cut timecount cut_percentage < timecount) :
    ∃ rep, clock_report all_times timecount cut_percentage = some rep := by
  have hidx : (timecount + 18446744073709551615) % 18446744073709551616 = timecount - 1 := by
    omega
  have hq := qsort_length all_times timecount
  obtain ⟨⟨avg, q, r⟩, hs⟩ := time_stats_some (qsort all_times timecount) timecount
    (main_cut timecount cut_percentage) hN (by omega) hcut
  unfold clock_report
  simp only
  rw [hidx, hs, List.getElem?_eq_getElem (by omega : 0 < (qsort all_times timecount).length),
    List.getElem?_eq_getElem (by omega : timecount - 1 < (qsort all_times timecount).length)]
  exact ⟨_, rfl⟩

theorem qsort_take (base : List timespec) (nmemb : Nat) (hlen : nmemb ≤ base.length) :
    (qsort base nmemb).take nmemb = (base.take nmemb).insertionSort time_le := by
  unfold qsort
  apply List.take_left'
  rw [List.length_insertionSort, List.length_take]
  omega

theorem get_time_diff_counter (t : trial) (res : timespec) (cntr : Nat)
    (h : cntr + 1 < 18446744073709551616) :
    (get_time_diff t.clock_round t.now t.start res cntr).2
      = cntr + (if valid_trial t = true then 1 else 0) := by
  unfold get_time_diff valid_trial
  cases hc : t.clock_round <;> cases hnow : t.now <;> simp only [Bool.false_and, Bool.true_and]
  · simp
  · simp
  · simp
  · next e =>
    by_cases hz : elapsed t.start e = { tv_sec := 0, tv_nsec := 0 }
    · have h1 : ¬ ((elapsed t.start e).tv_sec ≠ 0 ∨ (elapsed t.start e).tv_nsec ≠ 0) := by
        rw [timespec_ne_zero]; simpa using hz
      rw [if_neg h1]
      simp [hz]
    · have h1 : (elapsed t.start e).tv_sec ≠ 0 ∨ (elapsed t.start e).tv_nsec ≠ 0 :=
        (timespec_ne_zero _).2 hz
      rw [if_pos h1, Nat.mod_eq_of_lt h]
      simp [hz]

theorem main_loop_result (ignore_status : Bool) (trials : List trial) :
    ∀ (i : Nat) (all_times : List timespec) (timecount : Nat)
      (all_times1 : List timespec) (timecount1 : Nat),
      timecount + trials.length < 18446744073709551616 →
      main_loop ignore_status trials i all_times timecount = some (all_times1, timecount1) →
      timecount1 = timecount + trials.countP valid_trial := by
  induction trials with
  | nil =>
    intro i a c a1 c1 _ h
    simp only [main_loop, Option.some.injEq, Prod.mk.injEq] at h
    simp [h.2]
  | cons t ts ih =>
    intro i a c a1 c1 hb h
    unfold main_loop at h
    cases hres : a[i]? with
    | none => rw [hres] at h; simp at h
    | some res =>
      rw [hres] at h
      simp only at h
      split at h
      · simp at h
      · have hc := get_time_diff_counter t res c (by simp only [List.length_cons] at hb; omega)
        have := ih _ _ _ _ _ (by
          rw [hc]; simp only [List.length_cons] at hb; split <;> omega) h
        rw [this, hc, List.countP_cons]
        omega

theorem main_loop_some (ignore_status : Bool) (trials : List trial) :
    ∀ (i : Nat) (all_times : List timespec) (timecount : Nat),
      i + trials.length ≤ all_times.length →
      (∀ t ∈ trials, trial_aborts ignore_status t.status0 t.statuses = false) →
      ∃ r, main_loop ignore_status trials i all_times timecount = some r := by
  induction trials with
  | nil => intro i a c _ _; exact ⟨_, rfl⟩
  | cons t ts ih =>
    intro i a c hlen hab
    simp only [List.length_cons] at hlen
    unfold main_loop
    rw [List.getElem?_eq_getElem (by omega : i < a.length)]
    simp only
    rw [hab t (List.mem_cons_self _ _)]
    simp only [Bool.false_eq_true, if_false]
    apply ih
    · rw [List.length_set]; omega
    · intro x hx
      exact hab x (List.mem_cons_of_mem _ hx)

/-! The status that is tested after the children have been waited for, and the slots that the
loop writes. -/

theorem wait_all_last (status0 : Nat) (statuses : List Nat) (h : statuses ≠ []) :
    wait_all status0 statuses = statuses.getLast h := by
  unfold wait_all
  induction statuses generalizing status0 with
  | nil => exact absurd rfl h
  | cons s l ih =>
    rw [List.foldl_cons]
    cases l with
    | nil => rfl
    | cons s1 l1 =>
      rw [ih s (List.cons_ne_nil _ _), List.getLast_cons (List.cons_ne_nil _ _)]

theorem trial_aborts_iff (ignore_status : Bool) (status0 : Nat) (statuses : List Nat)
    (h : statuses ≠ []) :
    trial_aborts ignore_status status0 statuses = true
      ↔ WEXITSTATUS (statuses.getLast h) ≠ 0 ∧ ignore_status = false := by
  unfold trial_aborts
  rw [wait_all_last status0 statuses h]
  cases ignore_status <;> simp

theorem get_time_diff_slot (clock_round : Bool) (now : Option timespec) (start res : timespec)
    (cntr : Nat) :
    (get_time_diff clock_round now start res cntr).1
      = (get_time_diff clock_round now start res 0).1 := by
  unfold get_time_diff
  cases clock_round <;> cases now <;> rfl

theorem main_loop_frame (ignore_status : Bool) (trials : List trial) :
    ∀ (i : Nat) (all_times : List timespec) (timecount : Nat)
      (all_times1 : List timespec) (timecount1 : Nat),
      main_loop ignore_status trials i all_times timecount = some (all_times1, timecount1) →
      all_times1.length = all_times.length ∧ ∀ j, j < i → all_times1[j]? = all_times[j]? := by
  induction trials with
  | nil =>
    intro i a c a1 c1 h
    simp only [main_loop, Option.some.injEq, Prod.mk.injEq] at h
    rw [h.1]
    exact ⟨rfl, fun _ _ => rfl⟩
  | cons t ts ih =>
    intro i a c a1 c1 h
    unfold main_loop at h
    cases hres : a[i]? with
    | none => rw [hres] at h; simp at h
    | some res =>
      rw [hres] at h
      simp only at h
      split at h
      · simp at h
      · obtain ⟨hl, hf⟩ := ih _ _ _ _ _ h
        rw [List.length_set] at hl
        refine ⟨hl, fun j hj => ?_⟩
        rw [hf j (by omega), List.getElem?_set, if_neg (by omega)]

theorem main_loop_slots (ignore_status : Bool) (trials : List trial) :
    ∀ (i : Nat) (all_times : List timespec) (timecount : Nat)
      (all_times1 : List timespec) (timecount1 : Nat),
      main_loop ignore_status trials i all_times timecount = some (all_times1, timecount1) →
      ∀ (k : Nat) (t : trial) (res : timespec),
        trials[k]? = some t → all_times[i + k]? = some res →
        all_times1[i + k]? = some (get_time_diff t.clock_round t.now t.start res 0).1 := by
  induction trials with
  | nil =>
    intro i a c a1 c1 _ k t res hk
    simp at hk
  | cons t ts ih =>
    intro i a c a1 c1 h k t1 res1 hk hr
    unfold main_loop at h
    cases hres : a[i]? with
    | none => rw [hres] at h; simp at h
    | some res =>
      rw [hres] at h
      simp only at h
      split at h
      · simp at h
      · cases k with
        | zero =>
          simp only [List.getElem?_cons_zero, Option.some.injEq] at hk
          subst hk
          rw [Nat.add_zero] at hr ⊢
          rw [hres] at hr
          rw [← Option.some.inj hr]
          have hi : i < a.length := by
            rcases List.getElem?_eq_some.1 hres with ⟨hi, _⟩
            exact hi
          rw [(main_loop_frame ignore_status ts _ _ _ _ _ h).2 i (by omega), List.getElem?_set,
            if_pos rfl, if_pos hi, get_time_diff_slot]
        | succ k =>
          simp only [List.getElem?_cons_succ] at hk
          have := ih (i + 1) _ _ _ _ h k t1 res1 hk (by
            rw [List.getElem?_set, if_neg (by omega)]
            rw [← hr]; congr 1; omega)
          rw [← this]; congr 1; omega

theorem trimmed_view_getElem (all_times : List timespec) (timecount cut i : Nat) :
    (trimmed_view all_times timecount cut)[i]?
      = if i < timecount - 2 * cut then all_times[cut + i]? else none := by
  unfold trimmed_view
  rw [List.getElem?_take]
  split
  · rw [List.getElem?_drop]
  · rfl

theorem trimmed_view_congr (a b : List timespec) (timecount cut : Nat)
    (h : ∀ i, i < timecount - 2 * cut → b[cut + i]? = a[cut + i]?) :
    trimmed_view b timecount cut = trimmed_view a timecount cut := by
  apply List.ext_getElem?
  intro i
  rw [trimmed_view_getElem, trimmed_view_getElem]
  split
  · next hi => exact h i hi
  · rfl

theorem sqrt_of_wrapped :
    Nat.sqrt 170141183460469231731687303715884105728 = 13043817825332782212 := by
  symm
  rw [Nat.eq_sqrt]
  decide

theorem mpz_sqrt_wrapped :
    mpz_sqrt 170141183460469231731687303715884105728 = 13043817825332782212 := by
  unfold mpz_sqrt
  have hnat : Int.toNat 170141183460469231731687303715884105728
      = 170141183460469231731687303715884105728 := by decide
  rw [hnat, sqrt_of_wrapped]
  rfl

/-! ## The claims -/

/-- C1, as amended: on a trimmed view of `n ≥ 2` normalised, non-negative durations whose total
in nanoseconds is below `2^64`, `time_stats` returns the truncated mean of the view and a
deviation `(q, r)` with `0 ≤ r < 10^9` and `q * 10^9 + r = floor (sqrt ((S + (n-1)/2) / (n-1)))`,
where `S` is the sum of `(sample_ns - mean_ns)^2` over the samples of the view other than
`(0, 0)` and `mean_ns` is that truncated mean; both divisions truncate.  For `{1s, 2s, 3s}` the
result is `(1, 0)`. -/
theorem time_stats_deviation (all_times : List timespec) (timecount cut : Nat)
    (hN : timecount < 18446744073709551616) (hlen : timecount ≤ all_times.length)
    (hcut : 2 * cut + 2 ≤ timecount)
    (hd : ∀ t ∈ trimmed_view all_times timecount cut, duration t)
    (hs : sum_ns (trimmed_view all_times timecount cut) < 18446744073709551616) :
    (∃ avg q r, time_stats all_times timecount cut = some (avg, q, r)
      ∧ total_ns avg
          = (((sum_ns (trimmed_view all_times timecount cut)).toNat
                / (timecount - 2 * cut) : Nat) : Int)
      ∧ 0 ≤ q ∧ 0 ≤ r ∧ r < 1000000000
      ∧ q * 1000000000 + r
          = ((Nat.sqrt
                (((sq_dev_sum (trimmed_view all_times timecount cut)
                      (((sum_ns (trimmed_view all_times timecount cut)).toNat
                          / (timecount - 2 * cut) : Nat) : Int)).toNat
                    + (timecount - 2 * cut - 1) / 2) / (timecount - 2 * cut - 1)) : Nat) : Int))
    ∧ time_stats
        [{ tv_sec := 1, tv_nsec := 0 }, { tv_sec := 2, tv_nsec := 0 }, { tv_sec := 3, tv_nsec := 0 }]
        3 0 = some ({ tv_sec := 2, tv_nsec := 0 }, 1, 0) := by
  constructor
  · rw [time_stats_eq_stats_of all_times timecount cut hN hlen (by omega)]
    obtain ⟨avg, q, r, he, hav, hq, hr0, hr1, hqr⟩ :=
      stats_of_spec (trimmed_view all_times timecount cut) (timecount - 2 * cut) (by omega)
        hd hs
    rw [if_pos (by omega)] at hqr
    exact ⟨avg, q, r, he, hav, hq, hr0, hr1, hqr⟩
  · have h : time_stats
          [{ tv_sec := 1, tv_nsec := 0 }, { tv_sec := 2, tv_nsec := 0 },
            { tv_sec := 3, tv_nsec := 0 }] 3 0
        = some ({ tv_sec := 2, tv_nsec := 0 },
            Int.tdiv (mpz_sqrt 1000000000000000000) 1000000000,
            Int.tmod (mpz_sqrt 1000000000000000000) 1000000000) := rfl
    rw [h, mpz_sqrt_example]
    rfl

theorem time_stats_deviation_witness :
    sum_ns (trimmed_view
        [{ tv_sec := 1, tv_nsec := 0 }, { tv_sec := 2, tv_nsec := 0 }, { tv_sec := 3, tv_nsec := 0 }]
        3 0) = 6000000000
    ∧ time_stats
        [{ tv_sec := 1, tv_nsec := 0 }, { tv_sec := 2, tv_nsec := 0 }, { tv_sec := 3, tv_nsec := 0 }]
        3 0 = some ({ tv_sec := 2, tv_nsec := 0 }, 1, 0)
    ∧ ∃ avg q r, time_stats
        [{ tv_sec := 1, tv_nsec := 0 }, { tv_sec := 2, tv_nsec := 0 }, { tv_sec := 3, tv_nsec := 0 }]
        3 0 = some (avg, q, r) ∧ total_ns avg = 2000000000 ∧ 0 ≤ q ∧ 0 ≤ r ∧ r < 1000000000 :=
  have h := time_stats_deviation
    [{ tv_sec := 1, tv_nsec := 0 }, { tv_sec := 2, tv_nsec := 0 }, { tv_sec := 3, tv_nsec := 0 }]
    3 0 (by decide) (by decide) (by decide) (by decide) (by decide)
  ⟨by decide, h.2, match h.1 with
    | ⟨avg, q, r, he, hav, hq, hr0, hr1, _⟩ =>
      ⟨avg, q, r, he, hav.trans (by decide), hq, hr0, hr1⟩⟩

/-- C1, as stated, fails: the two samples `(10^10 s, 0)` are normalised and non-negative, their
total `2 * 10^19` ns exceeds `2^64`, the 64-bit sum wraps and `time_stats` returns the average
`(776627963, 145224192)` and the deviation `(13043817825, 332782212)`, where the truncated mean
is `10^19` ns and the formula of the claim gives `0`. -/
theorem wrapped_sum_deviation :
    (∀ t ∈ trimmed_view
        [{ tv_sec := 10000000000, tv_nsec := 0 }, { tv_sec := 10000000000, tv_nsec := 0 }] 2 0,
      duration t)
    ∧ time_stats
        [{ tv_sec := 10000000000, tv_nsec := 0 }, { tv_sec := 10000000000, tv_nsec := 0 }] 2 0
      = some ({ tv_sec := 776627963, tv_nsec := 145224192 }, 13043817825, 332782212)
    ∧ (sum_ns (trimmed_view
        [{ tv_sec := 10000000000, tv_nsec := 0 }, { tv_sec := 10000000000, tv_nsec := 0 }]
        2 0)).toNat / 2 = 10000000000000000000
    ∧ Nat.sqrt (((sq_dev_sum (trimmed_view
        [{ tv_sec := 10000000000, tv_nsec := 0 }, { tv_sec := 10000000000, tv_nsec := 0 }] 2 0)
        10000000000000000000).toNat + (2 - 1) / 2) / (2 - 1)) = 0
    ∧ ¬ ∃ avg q r, time_stats
        [{ tv_sec := 10000000000, tv_nsec := 0 }, { tv_sec := 10000000000, tv_nsec := 0 }] 2 0
          = some (avg, q, r)
        ∧ q * 1000000000 + r
          = ((Nat.sqrt (((sq_dev_sum (trimmed_view
              [{ tv_sec := 10000000000, tv_nsec := 0 }, { tv_sec := 10000000000, tv_nsec := 0 }]
              2 0) 10000000000000000000).toNat + (2 - 1) / 2) / (2 - 1)) : Nat) : Int) := by
  have hts : time_stats
      [{ tv_sec := 10000000000, tv_nsec := 0 }, { tv_sec := 10000000000, tv_nsec := 0 }] 2 0
      = some ({ tv_sec := 776627963, tv_nsec := 145224192 }, 13043817825, 332782212) := by
    have h : time_stats
        [{ tv_sec := 10000000000, tv_nsec := 0 }, { tv_sec := 10000000000, tv_nsec := 0 }] 2 0
        = some ({ tv_sec := 776627963, tv_nsec := 145224192 },
            Int.tdiv (mpz_sqrt 170141183460469231731687303715884105728) 1000000000,
            Int.tmod (mpz_sqrt 170141183460469231731687303715884105728) 1000000000) := rfl
    rw [h, mpz_sqrt_wrapped]
    rfl
  have hS : (sq_dev_sum (trimmed_view
      [{ tv_sec := 10000000000, tv_nsec := 0 }, { tv_sec := 10000000000, tv_nsec := 0 }] 2 0)
      10000000000000000000).toNat = 0 := by decide
  have hsq : Nat.sqrt (((sq_dev_sum (trimmed_view
      [{ tv_sec := 10000000000, tv_nsec := 0 }, { tv_sec := 10000000000, tv_nsec := 0 }] 2 0)
      10000000000000000000).toNat + (2 - 1) / 2) / (2 - 1)) = 0 := by
    rw [hS]
    exact Nat.sqrt_zero
  refine ⟨by decide, hts, by decide, hsq, ?_⟩
  rintro ⟨avg, q, r, he, hqr⟩
  rw [hts] at he
  simp only [Option.some.injEq, Prod.mk.injEq] at he
  obtain ⟨_, hq, hr⟩ := he
  rw [hsq, ← hq, ← hr] at hqr
  revert hqr
  decide

/-- C2: when `2 * cut < timecount`, the samples of the trimmed view are normalised and
non-negative and their total in nanoseconds is below `2^64`, the average of `time_stats` is
`(m / 10^9, m mod 10^9)` with `m` the total of the view divided (truncating) by
`timecount - 2 * cut`; for `{1s, 2s, 3s, 4s, 5s}` and `cut = 1` it is `(3, 0)`. -/
theorem time_stats_average (all_times : List timespec) (timecount cut : Nat)
    (hN : timecount < 18446744073709551616) (hlen : timecount ≤ all_times.length)
    (hcut : 2 * cut < timecount)
    (hd : ∀ t ∈ trimmed_view all_times timecount cut, duration t)
    (hs : sum_ns (trimmed_view all_times timecount cut) < 18446744073709551616) :
    (∃ q r, time_stats all_times timecount cut
      = some ({ tv_sec := (((sum_ns (trimmed_view all_times timecount cut)).toNat
                              / (timecount - 2 * cut) / 1000000000 : Nat) : Int),
                tv_nsec := (((sum_ns (trimmed_view all_times timecount cut)).toNat
                              / (timecount - 2 * cut) % 1000000000 : Nat) : Int) }, q, r))
    ∧ (time_stats
        [{ tv_sec := 1, tv_nsec := 0 }, { tv_sec := 2, tv_nsec := 0 }, { tv_sec := 3, tv_nsec := 0 },
         { tv_sec := 4, tv_nsec := 0 }, { tv_sec := 5, tv_nsec := 0 }] 5 1).map Prod.fst
        = some { tv_sec := 3, tv_nsec := 0 } := by
  constructor
  · rw [time_stats_eq_stats_of all_times timecount cut hN hlen (by omega)]
    exact stats_of_average _ _ (by omega) hd hs
  · decide

theorem time_stats_average_witness :
    sum_ns (trimmed_view
        [{ tv_sec := 1, tv_nsec := 0 }, { tv_sec := 2, tv_nsec := 0 }, { tv_sec := 3, tv_nsec := 0 },
         { tv_sec := 4, tv_nsec := 0 }, { tv_sec := 5, tv_nsec := 0 }] 5 1) = 9000000000
    ∧ ∃ q r, time_stats
        [{ tv_sec := 1, tv_nsec := 0 }, { tv_sec := 2, tv_nsec := 0 }, { tv_sec := 3, tv_nsec := 0 },
         { tv_sec := 4, tv_nsec := 0 }, { tv_sec := 5, tv_nsec := 0 }] 5 1
        = some ({ tv_sec := 3, tv_nsec := 0 }, q, r) :=
  ⟨by decide,
   (time_stats_average
      [{ tv_sec := 1, tv_nsec := 0 }, { tv_sec := 2, tv_nsec := 0 }, { tv_sec := 3, tv_nsec := 0 },
       { tv_sec := 4, tv_nsec := 0 }, { tv_sec := 5, tv_nsec := 0 }] 5 1
      (by decide) (by decide) (by decide) (by decide) (by decide)).1⟩

/-- C3, as amended: for normalised timestamps `start` and `e` with `e` not before `start` and
`e.tv_sec - start.tv_sec < 2^63` (the difference fits the signed 64-bit field), when both clock
reads succeed `get_time_diff` stores a duration whose nanoseconds lie in `[0, 10^9)` and whose
value is `e - start` in nanoseconds; one second is borrowed exactly when
`e.tv_nsec < start.tv_nsec`; from `(5, 900000000)` to `(7, 100000000)` it is `(1, 200000000)`. -/
theorem get_time_diff_elapsed (start e res : timespec) (cntr : Nat)
    (hs : normalised start) (he : normalised e) (hle : total_ns start ≤ total_ns e)
    (hr : e.tv_sec - start.tv_sec < 9223372036854775808) :
    (0 ≤ (get_time_diff true (some e) start res cntr).1.tv_nsec
      ∧ (get_time_diff true (some e) start res cntr).1.tv_nsec < 1000000000)
    ∧ total_ns (get_time_diff true (some e) start res cntr).1 = total_ns e - total_ns start
    ∧ 0 ≤ (get_time_diff true (some e) start res cntr).1.tv_sec
    ∧ (e.tv_nsec < start.tv_nsec →
        (get_time_diff true (some e) start res cntr).1
          = { tv_sec := e.tv_sec - start.tv_sec - 1,
              tv_nsec := e.tv_nsec + 1000000000 - start.tv_nsec })
    ∧ (¬ e.tv_nsec < start.tv_nsec →
        (get_time_diff true (some e) start res cntr).1
          = { tv_sec := e.tv_sec - start.tv_sec, tv_nsec := e.tv_nsec - start.tv_nsec })
    ∧ (get_time_diff true (some { tv_sec := 7, tv_nsec := 100000000 })
        { tv_sec := 5, tv_nsec := 900000000 } res cntr).1
          = { tv_sec := 1, tv_nsec := 200000000 } := by
  rw [get_time_diff_read]
  refine ⟨elapsed_normalised start e hs he hle hr, elapsed_total_ns start e hs he hle hr,
    ?_, ?_, ?_, ?_⟩
  · have h1 := elapsed_total_ns start e hs he hle hr
    have h2 := elapsed_normalised start e hs he hle hr
    unfold total_ns normalised at *
    omega
  · intro hlt
    rw [elapsed_exact start e hs he hle hr, if_pos hlt]
  · intro hlt
    rw [elapsed_exact start e hs he hle hr, if_neg hlt]
  · rw [get_time_diff_read]; decide

theorem get_time_diff_elapsed_witness :
    (normalised { tv_sec := 5, tv_nsec := 900000000 }
      ∧ normalised { tv_sec := 7, tv_nsec := 100000000 })
    ∧ (get_time_diff true (some { tv_sec := 7, tv_nsec := 100000000 })
        { tv_sec := 5, tv_nsec := 900000000 } { tv_sec := 0, tv_nsec := 0 } 0).1
          = { tv_sec := 1, tv_nsec := 200000000 }
    ∧ total_ns (get_time_diff true (some { tv_sec := 7, tv_nsec := 100000000 })
        { tv_sec := 5, tv_nsec := 900000000 } { tv_sec := 0, tv_nsec := 0 } 0).1
          = total_ns { tv_sec := 7, tv_nsec := 100000000 }
              - total_ns { tv_sec := 5, tv_nsec := 900000000 } :=
  have h := get_time_diff_elapsed { tv_sec := 5, tv_nsec := 900000000 }
      { tv_sec := 7, tv_nsec := 100000000 } { tv_sec := 0, tv_nsec := 0 } 0
      (by decide) (by decide) (by decide) (by decide)
  ⟨⟨by decide, by decide⟩, h.2.2.2.2.2, h.2.1⟩

/-- C3, as stated, fails: `start = (-2^63, 0)` and `e = (1, 0)` are normalised and `e` is not
before `start`, but `1 - (-2^63)` does not fit the signed 64-bit field: `get_time_diff` stores
`(-9223372036854775807, 0)`, a negative duration whose value is not `e - start`. -/
theorem elapsed_signed_overflow :
    normalised { tv_sec := -9223372036854775808, tv_nsec := 0 }
    ∧ normalised { tv_sec := 1, tv_nsec := 0 }
    ∧ total_ns { tv_sec := -9223372036854775808, tv_nsec := 0 }
        ≤ total_ns { tv_sec := 1, tv_nsec := 0 }
    ∧ (get_time_diff true (some { tv_sec := 1, tv_nsec := 0 })
        { tv_sec := -9223372036854775808, tv_nsec := 0 } { tv_sec := 0, tv_nsec := 0 } 0).1
          = { tv_sec := -9223372036854775807, tv_nsec := 0 }
    ∧ total_ns (get_time_diff true (some { tv_sec := 1, tv_nsec := 0 })
        { tv_sec := -9223372036854775808, tv_nsec := 0 } { tv_sec := 0, tv_nsec := 0 } 0).1
          ≠ total_ns { tv_sec := 1, tv_nsec := 0 }
              - total_ns { tv_sec := -9223372036854775808, tv_nsec := 0 } := by
  refine ⟨by decide, by decide, by decide, by decide, by decide⟩

/-- C4: without overflow the cut of `main` is `(timecount * cut_percentage + 50) / 100`.  When
`2 * cut < timecount`, `time_stats` has a result `(avg, q, r)` computed from the samples at the
indices `cut .. timecount - cut - 1` alone, `timecount - 2 * cut` of them: `avg` is their 64-bit
sum divided by their number, `(q, r)` is the square root of their corrected sum of squared
differences from `avg`, whatever the other elements of the array are; when these samples are
normalised, non-negative and of a total below `2^64`, `avg` is their truncated mean and `(q, r)`
their deviation.  `timecount = 30` and `cut_percentage = 2` give the cut `1` and leave `28`;
`cut_percentage = 0` gives the cut `0` and the full set. -/
theorem main_cut_trims (all_times : List timespec) (timecount cut_percentage cut : Nat)
    (hN : timecount < 18446744073709551616) (hlen : timecount ≤ all_times.length) :
    (timecount * cut_percentage + 50 < 18446744073709551616 →
      main_cut timecount cut_percentage = (timecount * cut_percentage + 50) / 100)
    ∧ (2 * cut < timecount →
        (trimmed_count timecount cut = timecount - 2 * cut
          ∧ (trimmed_view all_times timecount cut).length = timecount - 2 * cut
          ∧ ∀ i, i < timecount - 2 * cut →
              (trimmed_view all_times timecount cut)[i]? = all_times[cut + i]?)
        ∧ (∃ avg q r, time_stats all_times timecount cut = some (avg, q, r)
            ∧ avg = timespec.mk
                ((ulong_total (trimmed_view all_times timecount cut)
                    / (timecount - 2 * cut) / 1000000000 : Nat) : Int)
                ((ulong_total (trimmed_view all_times timecount cut)
                    / (timecount - 2 * cut) % 1000000000 : Nat) : Int)
            ∧ q = Int.tdiv (mpz_sqrt (if timecount - 2 * cut > 1 then
                  Int.tdiv (sqdif_total avg (trimmed_view all_times timecount cut)
                      + (((timecount - 2 * cut - 1) / 2 : Nat) : Int))
                    ((timecount - 2 * cut - 1 : Nat) : Int)
                else sqdif_total avg (trimmed_view all_times timecount cut))) 1000000000
            ∧ r = Int.tmod (mpz_sqrt (if timecount - 2 * cut > 1 then
                  Int.tdiv (sqdif_total avg (trimmed_view all_times timecount cut)
                      + (((timecount - 2 * cut - 1) / 2 : Nat) : Int))
                    ((timecount - 2 * cut - 1 : Nat) : Int)
                else sqdif_total avg (trimmed_view all_times timecount cut))) 1000000000
            ∧ ((∀ t ∈ trimmed_view all_times timecount cut, duration t) →
                sum_ns (trimmed_view all_times timecount cut) < 18446744073709551616 →
                total_ns avg
                    = (((sum_ns (trimmed_view all_times timecount cut)).toNat
                          / (timecount - 2 * cut) : Nat) : Int)
                ∧ 0 ≤ r ∧ r < 1000000000
                ∧ q * 1000000000 + r
                    = ((Nat.sqrt (if 1 < timecount - 2 * cut then
                          ((sq_dev_sum (trimmed_view all_times timecount cut)
                              (((sum_ns (trimmed_view all_times timecount cut)).toNat
                                  / (timecount - 2 * cut) : Nat) : Int)).toNat
                            + (timecount - 2 * cut - 1) / 2) / (timecount - 2 * cut - 1)
                        else (sq_dev_sum (trimmed_view all_times timecount cut)
                              (((sum_ns (trimmed_view all_times timecount cut)).toNat
                                  / (timecount - 2 * cut) : Nat) : Int)).toNat) : Nat) : Int)))
        ∧ (∀ other : List timespec, timecount ≤ other.length →
            (∀ i, i < timecount - 2 * cut → other[cut + i]? = all_times[cut + i]?) →
            time_stats other timecount cut = time_stats all_times timecount cut))
    ∧ (main_cut 30 2 = 1 ∧ trimmed_count 30 (main_cut 30 2) = 28)
    ∧ (main_cut timecount 0 = 0
        ∧ trimmed_view all_times timecount (main_cut timecount 0) = all_times.take timecount
        ∧ time_stats all_times timecount (main_cut timecount 0)
            = stats_of (all_times.take timecount) timecount) := by
  refine ⟨main_cut_exact timecount cut_percentage, ?_, by decide, ?_⟩
  · intro hcut
    refine ⟨⟨trimmed_count_exact timecount cut (Or.inr hN) (by omega),
      trimmed_view_length all_times timecount cut hlen, ?_⟩, ?_, ?_⟩
    · intro i hi
      rw [trimmed_view_getElem, if_pos hi]
    · rw [time_stats_eq_stats_of all_times timecount cut hN hlen (by omega)]
      obtain ⟨avg, havg, hst⟩ :=
        stats_of_eq (trimmed_view all_times timecount cut) (timecount - 2 * cut) (by omega)
      refine ⟨avg, _, _, hst, havg, rfl, rfl, ?_⟩
      intro hd hs
      obtain ⟨avg2, q2, r2, he2, hav2, _, hr0, hr1, hqr⟩ :=
        stats_of_spec (trimmed_view all_times timecount cut) (timecount - 2 * cut) (by omega)
          hd hs
      rw [hst] at he2
      simp only [Option.some.injEq, Prod.mk.injEq] at he2
      obtain ⟨h1, h2, h3⟩ := he2
      subst h1
      rw [h2, h3]
      exact ⟨hav2, hr0, hr1, hqr⟩
    · intro other hlen2 hsame
      rw [time_stats_eq_stats_of all_times timecount cut hN hlen (by omega),
        time_stats_eq_stats_of other timecount cut hN hlen2 (by omega),
        trimmed_view_congr all_times other timecount cut hsame]
  · have h0 : main_cut timecount 0 = 0 := by
      unfold main_cut; simp
    rw [h0, time_stats_eq_stats_of all_times timecount 0 hN hlen (by omega)]
    have hv : trimmed_view all_times timecount 0 = all_times.take timecount := by
      simp [trimmed_view]
    rw [hv]
    exact ⟨rfl, rfl, rfl⟩

theorem main_cut_trims_witness :
    main_cut 4 25 = 1
    ∧ ∃ avg q r,
        time_stats
          [{ tv_sec := 1, tv_nsec := 0 }, { tv_sec := 2, tv_nsec := 0 },
           { tv_sec := 4, tv_nsec := 0 }, { tv_sec := 100, tv_nsec := 0 }] 4 1
          = some (avg, q, r)
        ∧ total_ns avg = 3000000000 :=
  have h := main_cut_trims
    [{ tv_sec := 1, tv_nsec := 0 }, { tv_sec := 2, tv_nsec := 0 },
     { tv_sec := 4, tv_nsec := 0 }, { tv_sec := 100, tv_nsec := 0 }] 4 25 1
    (by decide) (by decide)
  ⟨(h.1 (by decide)).trans (by decide),
    match (h.2.1 (by decide)).2.1 with
    | ⟨avg, q, r, he, _, _, _, hspec⟩ =>
      ⟨avg, q, r, he, (hspec (by decide) (by decide)).1.trans (by decide)⟩⟩

/-- C5: for `timecount ≥ 1` normalised samples and every cut percentage, the minimum and the
maximum of the report are the first and the last element of the full sample sequence sorted with
`time_compare`; they are samples of the set, the least and the greatest in nanoseconds; they are
the same for every cut percentage; and the report exists whenever `2 * cut < timecount`. -/
theorem clock_report_min_max (all_times : List timespec) (timecount cut_percentage : Nat)
    (hN : timecount < 18446744073709551616) (hn : 1 ≤ timecount)
    (hlen : timecount ≤ all_times.length)
    (hnorm : ∀ t ∈ all_times.take timecount, normalised t) :
    (List.Sorted time_le ((qsort all_times timecount).take timecount)
      ∧ ((qsort all_times timecount).take timecount).Perm (all_times.take timecount))
    ∧ (∀ rep, clock_report all_times timecount cut_percentage = some rep →
        ((qsort all_times timecount).take timecount).head? = some rep.minimum
        ∧ ((qsort all_times timecount).take timecount).getLast? = some rep.maximum
        ∧ rep.minimum ∈ all_times.take timecount
        ∧ rep.maximum ∈ all_times.take timecount
        ∧ ∀ t ∈ all_times.take timecount,
            total_ns rep.minimum ≤ total_ns t ∧ total_ns t ≤ total_ns rep.maximum)
    ∧ (∀ cut_percentage2 rep rep2,
        clock_report all_times timecount cut_percentage = some rep →
        clock_report all_times timecount cut_percentage2 = some rep2 →
        rep2.minimum = rep.minimum ∧ rep2.maximum = rep.maximum)
    ∧ (2 * main_cut timecount cut_percentage < timecount →
        ∃ rep, clock_report all_times timecount cut_percentage = some rep) := by
  rw [qsort_take all_times timecount hlen]
  have hsorted := List.sorted_insertionSort time_le (all_times.take timecount)
  have hperm := List.perm_insertionSort time_le (all_times.take timecount)
  refine ⟨⟨hsorted, hperm⟩, ?_, ?_, clock_report_some all_times timecount cut_percentage hN hlen⟩
  · intro rep hrep
    obtain ⟨hmin, hmax⟩ :=
      clock_report_fields all_times timecount cut_percentage hN hn hlen rep hrep
    have hmin_mem : rep.minimum ∈ all_times.take timecount :=
      hperm.mem_iff.1 (List.mem_of_mem_head? hmin)
    have hmax_mem : rep.maximum ∈ all_times.take timecount :=
      hperm.mem_iff.1 (List.mem_of_mem_getLast? hmax)
    refine ⟨hmin, hmax, hmin_mem, hmax_mem, ?_⟩
    intro t ht
    have ht2 := hperm.mem_iff.2 ht
    constructor
    · exact (time_le_iff_total_ns _ _ (hnorm _ hmin_mem) (hnorm _ ht)).1
        (sorted_head_le _ hsorted _ hmin t ht2)
    · exact (time_le_iff_total_ns _ _ (hnorm _ ht) (hnorm _ hmax_mem)).1
        (sorted_le_last _ hsorted _ hmax t ht2)
  · intro cp2 rep rep2 hrep hrep2
    obtain ⟨hmin, hmax⟩ :=
      clock_report_fields all_times timecount cut_percentage hN hn hlen rep hrep
    obtain ⟨hmin2, hmax2⟩ := clock_report_fields all_times timecount cp2 hN hn hlen rep2 hrep2
    rw [hmin] at hmin2
    rw [hmax] at hmax2
    exact ⟨(Option.some.inj hmin2).symm, (Option.some.inj hmax2).symm⟩

theorem clock_report_min_max_witness :
    ∃ rep,
      clock_report
        [{ tv_sec := 3, tv_nsec := 0 }, { tv_sec := 1, tv_nsec := 5 }, { tv_sec := 1, tv_nsec := 0 }]
        3 2 = some rep
      ∧ rep.minimum = { tv_sec := 1, tv_nsec := 0 }
      ∧ rep.maximum = { tv_sec := 3, tv_nsec := 0 } :=
  have h := clock_report_min_max
    [{ tv_sec := 3, tv_nsec := 0 }, { tv_sec := 1, tv_nsec := 5 }, { tv_sec := 1, tv_nsec := 0 }]
    3 2 (by decide) (by decide) (by decide) (by decide)
  match h.2.2.2 (by decide) with
  | ⟨rep, hrep⟩ =>
    ⟨rep, hrep,
      (Option.some.inj ((h.2.1 rep hrep).1.symm.trans (by decide))),
      (Option.some.inj ((h.2.1 rep hrep).2.1.symm.trans (by decide)))⟩

/-- C6: `get_time_diff` adds exactly one to the valid-sample counter if and only if the start
timestamp was read, the read at the end succeeded and the elapsed time it stores is not `(0, 0)`;
otherwise, and so whenever a clock read failed, the counter is unchanged.  After the loop of
`main` the counter is the number of such trials, which is at most the number of trials; the
loop reaches its end when no trial ends in the fatal exit. -/
theorem main_loop_counter (ignore_status : Bool) (trials : List trial)
    (all_times : List timespec) (hN : trials.length < 18446744073709551616)
    (hlen : trials.length ≤ all_times.length) :
    (∀ (clock_round : Bool) (now : Option timespec) (start res : timespec) (cntr : Nat),
      cntr < trials.length →
        ((get_time_diff clock_round now start res cntr).2 = cntr + 1 ↔
          (clock_round = true ∧ now.isSome = true
            ∧ (get_time_diff clock_round now start res cntr).1 ≠ { tv_sec := 0, tv_nsec := 0 }))
        ∧ ((get_time_diff clock_round now start res cntr).2 = cntr + 1
            ∨ (get_time_diff clock_round now start res cntr).2 = cntr)
        ∧ ((clock_round = false ∨ now = none) →
            (get_time_diff clock_round now start res cntr).2 = cntr))
    ∧ (∀ all_times1 timecount1,
        main_loop ignore_status trials 0 all_times 0 = some (all_times1, timecount1) →
        timecount1 = trials.countP valid_trial ∧ timecount1 ≤ trials.length)
    ∧ ((∀ t ∈ trials, trial_aborts ignore_status t.status0 t.statuses = false) →
        ∃ all_times1, main_loop ignore_status trials 0 all_times 0
          = some (all_times1, trials.countP valid_trial)) := by
  refine ⟨?_, ?_, ?_⟩
  · intro clock_round now start res cntr hc
    have hv := get_time_diff_counter
      { clock_round := clock_round, start := start, now := now, status0 := 0, statuses := [] }
      res cntr (by omega)
    simp only at hv
    rw [hv]
    cases clock_round <;> cases now <;>
      simp [valid_trial, get_time_diff]
    by_cases hz : elapsed start ‹timespec› = { tv_sec := 0, tv_nsec := 0 } <;> simp [hz]
  · intro a1 c1 h
    have := main_loop_result ignore_status trials 0 all_times 0 a1 c1 (by omega) h
    rw [Nat.zero_add] at this
    exact ⟨this, this ▸ List.countP_le_length _⟩
  · intro hab
    obtain ⟨⟨a1, c1⟩, h⟩ := main_loop_some ignore_status trials 0 all_times 0 (by omega) hab
    have := main_loop_result ignore_status trials 0 all_times 0 a1 c1 (by omega) h
    rw [Nat.zero_add] at this
    exact ⟨a1, this ▸ h⟩

theorem main_loop_counter_witness :
    ∃ all_times1,
      main_loop false
        [{ clock_round := true, start := { tv_sec := 5, tv_nsec := 0 }, now := none,
           status0 := 0, statuses := [0] },
         { clock_round := true, start := { tv_sec := 5, tv_nsec := 0 },
           now := some { tv_sec := 6, tv_nsec := 0 }, status0 := 0, statuses := [0] }]
        0 [{ tv_sec := 0, tv_nsec := 0 }, { tv_sec := 0, tv_nsec := 0 }] 0
        = some (all_times1, 1) :=
  (main_loop_counter false
    [{ clock_round := true, start := { tv_sec := 5, tv_nsec := 0 }, now := none,
       status0 := 0, statuses := [0] },
     { clock_round := true, start := { tv_sec := 5, tv_nsec := 0 },
       now := some { tv_sec := 6, tv_nsec := 0 }, status0 := 0, statuses := [0] }]
    [{ tv_sec := 0, tv_nsec := 0 }, { tv_sec := 0, tv_nsec := 0 }]
    (by decide) (by decide)).2.2 (by decide)

/-- C7 (the code departs from the claim): a first trial whose read at the end fails, followed
by a valid trial of one second.  The loop counts one valid sample and leaves the value of the
failed trial in slot `0` and the valid duration in slot `1`; the first `timecount = 1` slots,
which are what is sorted and reported, hold the value of the failed trial and not the valid
duration.  The same happens when the first trial has both reads but an elapsed time of
`(0, 0)`. -/
theorem main_loop_failed_slot_used :
    main_loop false
        [{ clock_round := true, start := { tv_sec := 5, tv_nsec := 0 }, now := none,
           status0 := 0, statuses := [0] },
         { clock_round := true, start := { tv_sec := 5, tv_nsec := 0 },
           now := some { tv_sec := 6, tv_nsec := 0 }, status0 := 0, statuses := [0] }]
        0 [{ tv_sec := 0, tv_nsec := 0 }, { tv_sec := 0, tv_nsec := 0 }] 0
      = some ([{ tv_sec := -5, tv_nsec := 0 }, { tv_sec := 1, tv_nsec := 0 }], 1)
    ∧ valid_durations
        [{ clock_round := true, start := { tv_sec := 5, tv_nsec := 0 }, now := none,
           status0 := 0, statuses := [0] },
         { clock_round := true, start := { tv_sec := 5, tv_nsec := 0 },
           now := some { tv_sec := 6, tv_nsec := 0 }, status0 := 0, statuses := [0] }]
      = [{ tv_sec := 1, tv_nsec := 0 }]
    ∧ List.take 1 [({ tv_sec := -5, tv_nsec := 0 } : timespec), { tv_sec := 1, tv_nsec := 0 }]
      = [{ tv_sec := -5, tv_nsec := 0 }]
    ∧ (clock_report [{ tv_sec := -5, tv_nsec := 0 }, { tv_sec := 1, tv_nsec := 0 }] 1 2).map
        (fun rep => (rep.minimum, rep.maximum))
      = some ({ tv_sec := -5, tv_nsec := 0 }, { tv_sec := -5, tv_nsec := 0 })
    ∧ main_loop false
        [{ clock_round := true, start := { tv_sec := 5, tv_nsec := 0 },
           now := some { tv_sec := 5, tv_nsec := 0 }, status0 := 0, statuses := [0] },
         { clock_round := true, start := { tv_sec := 5, tv_nsec := 0 },
           now := some { tv_sec := 6, tv_nsec := 0 }, status0 := 0, statuses := [0] }]
        0 [{ tv_sec := 0, tv_nsec := 0 }, { tv_sec := 0, tv_nsec := 0 }] 0
      = some ([{ tv_sec := 0, tv_nsec := 0 }, { tv_sec := 1, tv_nsec := 0 }], 1) := by
  refine ⟨by decide, by decide, by decide, by decide, by decide⟩

/-- C8 (the code departs from the claim): with `timecount = 2` and `cut_percentage = 25` the cut
is `1` and `2 * cut = timecount`; `time_stats` reduces the count to `0` and divides by it, so
there is no result, where the full set would have the mean `1.5 s`.  With `timecount = 1` and
`cut_percentage = 50` the count wraps around to `2^64 - 1` and the loop leaves the array. -/
theorem time_stats_cut_consumes_all :
    main_cut 2 25 = 1
    ∧ trimmed_count 2 (main_cut 2 25) = 0
    ∧ time_stats [{ tv_sec := 1, tv_nsec := 0 }, { tv_sec := 2, tv_nsec := 0 }] 2 (main_cut 2 25)
        = none
    ∧ clock_report [{ tv_sec := 1, tv_nsec := 0 }, { tv_sec := 2, tv_nsec := 0 }] 2 25 = none
    ∧ (time_stats [{ tv_sec := 1, tv_nsec := 0 }, { tv_sec := 2, tv_nsec := 0 }] 2 0).map Prod.fst
        = some { tv_sec := 1, tv_nsec := 500000000 }
    ∧ main_cut 1 50 = 1
    ∧ trimmed_count 1 (main_cut 1 50) = 18446744073709551615
    ∧ time_stats [{ tv_sec := 1, tv_nsec := 0 }] 1 (main_cut 1 50) = none := by
  refine ⟨by decide, by decide, by decide, by decide, by decide, by decide, by decide, by decide⟩

/-- C9 (the code departs from the claim): with two children of which the first exits with
status `1` and the second with status `0`, and without the ignore option, the trial does not
abort: the status tested after the loop is the one of the child waited for last.  In the
reverse order the trial aborts. -/
theorem trial_aborts_last_status_only :
    WEXITSTATUS 256 = 1
    ∧ (∃ s ∈ [256, 0], WEXITSTATUS s ≠ 0)
    ∧ wait_all 0 [256, 0] = 0
    ∧ trial_aborts false 0 [256, 0] = false
    ∧ trial_aborts false 0 [0, 256] = true
    ∧ trial_aborts true 0 [0, 256] = false := by
  refine ⟨by decide, by decide, by decide, by decide, by decide, by decide⟩

/-- C10: for `cut_percentage ≤ 24` and `timecount ≥ 1` (the product not overflowing) the cut of
`main` satisfies `2 * cut < timecount`, so the count `time_stats` divides by is
`timecount - 2 * cut`, at least `1`, without wrap-around; `24` is tight: `cut_percentage = 25`
with `timecount = 2` leaves a count of `0`. -/
theorem main_cut_small (timecount cut_percentage : Nat) (hp : cut_percentage ≤ 24)
    (hn : 1 ≤ timecount) (h : timecount * cut_percentage + 50 < 18446744073709551616) :
    2 * main_cut timecount cut_percentage < timecount
    ∧ trimmed_count timecount (main_cut timecount cut_percentage)
        = timecount - 2 * main_cut timecount cut_percentage
    ∧ 1 ≤ trimmed_count timecount (main_cut timecount cut_percentage)
    ∧ trimmed_count 2 (main_cut 2 25) = 0 := by
  have hc := main_cut_exact timecount cut_percentage h
  have hm : timecount * cut_percentage ≤ timecount * 24 := Nat.mul_le_mul_left _ hp
  have hlt : 2 * main_cut timecount cut_percentage < timecount := by
    rw [hc]; omega
  have hN : main_cut timecount cut_percentage = 0 ∨ timecount < 18446744073709551616 := by
    rcases Nat.eq_zero_or_pos cut_percentage with h0 | h0
    · left; rw [hc, h0]; omega
    · right
      have : timecount * 1 ≤ timecount * cut_percentage := Nat.mul_le_mul_left _ h0
      omega
  have ht := trimmed_count_exact timecount _ hN (Nat.le_of_lt hlt)
  refine ⟨hlt, ht, ?_, by decide⟩
  rw [ht]; omega

theorem main_cut_small_witness :
    2 * main_cut 30 2 < 30 ∧ trimmed_count 30 (main_cut 30 2) = 28 :=
  ⟨(main_cut_small 30 2 (by decide) (by decide) (by decide)).1,
   (main_cut_small 30 2 (by decide) (by decide) (by decide)).2.1.trans (by decide)⟩

end Timing
